import Mathlib

/-!
# SmartLibrary: the book inventory controller

A shallow embedding of `dbdriver/controllers/bookinventorycontroller.go`.

The controller talks to a document store through a handful of point
operations (`FindOne`, `InsertOne`, `UpdateOne`, `UpdateMany`, `DeleteOne`).
A collection is modelled as the list of its documents in natural (insertion)
order; `FindOne`, `UpdateOne` and `DeleteOne` act on the first document that
matches the filter, `UpdateMany` on all of them, `InsertOne` appends.

Every store call can fail: the `World` carries a schedule `faults` with one
slot per store call still to come (`some e` makes that call fail with `e`
and leaves the collections alone, `none` or an exhausted schedule lets it
run).  `time.Now()` reads the stream `clock`.

Conventions of the model:
* `count` is an unbounded integer; the store's `$inc` adds to it.
* a `$set` of an empty object changes nothing and is not an error.
* the store-assigned `_id` is kept only for `library.books`, the one collection
  that is filtered on it; no operation on the `SMLS` collections reads it.
* the bson names of the struct fields are the ones the filters use
  (`book_id`, `book_name`, `book_inventory_ptr`, ...).
* `UpdateBook` receives its two arguments as values (non-nil pointers).
-/

namespace SmartLibrary

/-- Go `time.Time`, as an instant counted from the zero time (`IsZero` is `= 0`). -/
abbrev Time := Nat

/-- The `primitive.ObjectID` of a stored document. -/
abbrev ObjectID := Nat

/-- Modelled from the spec: `models.BookInventory` is declared in the `models`
package, which is not part of the sources at hand.  The fields are the ones
the controller's struct literals and filters use (`book_name`, `author`,
`book_dept`, `added_date`, `count`); the spec calls it the aggregate record
per distinct title. -/
structure BookInventory where
  BookName : String
  Author : String
  BookDept : String
  AddedDate : Time
  Count : Int
  deriving DecidableEq, Repr

/-- Modelled from the spec: `models.Book` is declared in the `models` package,
which is not part of the sources at hand.  The fields are the ones the
controller's struct literal and filters use (`book_id`, `book_status`,
`book_inventory_ptr`); `BookInventoryPtr` is a Go pointer and may be nil. -/
structure Book where
  BookID : String
  BookStatus : Bool
  BookInventoryPtr : Option BookInventory
  deriving DecidableEq, Repr

/-- A document of the collection `library.books`, which `Borrow` and `Return`
address by `_id`. -/
structure LibraryBook where
  _id : ObjectID
  book : Book
  deriving DecidableEq, Repr

/-- The errors a store call can return: `mongo.ErrNoDocuments`, or any other
failure (network, timeout, ...) identified by a code. -/
inductive StoreErr where
  | ErrNoDocuments
  | failure (code : Nat)
  deriving DecidableEq, Repr

deriving instance DecidableEq for Except

/-- Go `error`: `none` is `nil`. -/
abbrev GoError := Option StoreErr

/-- The database server as the controller sees it, with the environment. -/
structure World where
  /-- the collection `SMLS.Books` -/
  Books : List Book
  /-- the collection `SMLS.BookInventory` -/
  Inventory : List BookInventory
  /-- the collection `library.books` -/
  LibraryBooks : List LibraryBook
  /-- the outcome scheduled for each coming store call -/
  faults : List (Option StoreErr)
  /-- the coming readings of `time.Now()` -/
  clock : Nat → Time

/-! ## Collections -/

/-- The first document matching the filter, or `ErrNoDocuments`. -/
def findOne {α : Type} (p : α → Bool) (c : List α) : Except StoreErr α :=
  match c.find? p with
  | some a => .ok a
  | none => .error .ErrNoDocuments

/-- Apply `f` to the first document matching the filter. -/
def updateOne {α : Type} (p : α → Bool) (f : α → α) : List α → List α
  | [] => []
  | a :: as => if p a then f a :: as else a :: updateOne p f as

/-- Apply `f` to every document matching the filter. -/
def updateMany {α : Type} (p : α → Bool) (f : α → α) (c : List α) : List α :=
  c.map (fun a => if p a then f a else a)

/-- Remove the first document matching the filter. -/
def deleteOne {α : Type} (p : α → Bool) : List α → List α
  | [] => []
  | a :: as => if p a then as else a :: deleteOne p as

/-- Append a document. -/
def insertOne {α : Type} (a : α) (c : List α) : List α := c ++ [a]

/-! ## Store calls -/

/-- One store call: consume a slot of the fault schedule and either fail with
the scheduled error or run the operation. -/
def call {α : Type} (w : World) (op : World → Except StoreErr α × World) :
    Except StoreErr α × World :=
  match w.faults with
  | [] => op w
  | none :: fs => op { w with faults := fs }
  | some e :: fs => (.error e, { w with faults := fs })

/-- Read `time.Now()`. -/
def now (w : World) : Time × World :=
  (w.clock 0, { w with clock := fun n => w.clock (n + 1) })

/-! ## Filters and modifiers -/

/-- The filter `{"book_id": bookID}`. -/
def byBookID (bookID : String) (b : Book) : Bool := decide (b.BookID = bookID)

/-- The filter `{"book_name": bookName}`. -/
def byBookName (bookName : String) (i : BookInventory) : Bool := decide (i.BookName = bookName)

/-- The filter `{"book_inventory_ptr.book_name": bookName}`. -/
def byEmbeddedName (bookName : String) (b : Book) : Bool :=
  match b.BookInventoryPtr with
  | some i => decide (i.BookName = bookName)
  | none => false

/-- The modifier `{"$inc": {"count": d}}`. -/
def incCount (d : Int) (i : BookInventory) : BookInventory := { i with Count := i.Count + d }

/-- The modifier `{"$set": {"book_inventory_ptr": inv}}`. -/
def setInventoryPtr (inv : BookInventory) (b : Book) : Book :=
  { b with BookInventoryPtr := some inv }

/-- The `updateFields` map of `UpdateBook`: the fields to `$set`. -/
structure UpdateFields where
  book_name : Option String
  author : Option String
  book_dept : Option String
  added_date : Option Time
  count : Option Int
  deriving DecidableEq, Repr

/-- The modifier `{"$set": updateFields}`. -/
def setFields (u : UpdateFields) (i : BookInventory) : BookInventory :=
  { BookName := u.book_name.getD i.BookName
    Author := u.author.getD i.Author
    BookDept := u.book_dept.getD i.BookDept
    AddedDate := u.added_date.getD i.AddedDate
    Count := u.count.getD i.Count }

/-! ## The controller -/

/-- `BookInventoryController.AddBook`. -/
def AddBook (w : World) (bookID bookName author bookDept : String) :
    (String × GoError) × World :=
  match call w (fun w => (findOne (byBookID bookID) w.Books, w)) with
  | (.ok _, w) => (("Book with ID " ++ bookID ++ " already exists", none), w)
  | (.error _, w) =>
    let step2 : GoError × World :=
      match call w (fun w => (findOne (byBookName bookName) w.Inventory, w)) with
      | (.ok _, w) =>
        match call w (fun w =>
            (.ok (), { w with Inventory := updateOne (byBookName bookName) (incCount 1) w.Inventory })) with
        | (.error e, w) => (some e, w)
        | (.ok _, w) => (none, w)
      | (.error .ErrNoDocuments, w) =>
        let (t, w) := now w
        let newInventory : BookInventory :=
          { BookName := bookName, Author := author, BookDept := bookDept, AddedDate := t, Count := 1 }
        match call w (fun w => (.ok (), { w with Inventory := insertOne newInventory w.Inventory })) with
        | (.error e, w) => (some e, w)
        | (.ok _, w) => (none, w)
      | (.error e, w) => (some e, w)
    match step2 with
    | (some e, w) => (("", some e), w)
    | (none, w) =>
      let (t, w) := now w
      let snapshot : BookInventory :=
        { BookName := bookName, Author := author, BookDept := bookDept, AddedDate := t, Count := 1 }
      let newBook : Book :=
        { BookID := bookID, BookStatus := true, BookInventoryPtr := some snapshot }
      match call w (fun w => (.ok (), { w with Books := insertOne newBook w.Books })) with
      | (.error e, w) => (("", some e), w)
      | (.ok _, w) =>
        match call w (fun w =>
            (.ok (), { w with Books := updateMany (fun _ => true) (setInventoryPtr snapshot) w.Books })) with
        | (.error e, w) => (("", some e), w)
        | (.ok _, w) => (("Book added successfully", none), w)

/-- `BookInventoryController.UpdateBook`. -/
def UpdateBook (w : World) (presentData toBeUpdatedData : BookInventory) : GoError × World :=
  match call w (fun w => (findOne (byBookName presentData.BookName) w.Inventory, w)) with
  | (.error e, w) => (some e, w)
  | (.ok existingInventory, w) =>
    let updateFields : UpdateFields :=
      { book_name :=
          if toBeUpdatedData.BookName ≠ "" ∧ toBeUpdatedData.BookName ≠ existingInventory.BookName
          then some toBeUpdatedData.BookName else none
        author :=
          if toBeUpdatedData.Author ≠ "" ∧ toBeUpdatedData.Author ≠ existingInventory.Author
          then some toBeUpdatedData.Author else none
        book_dept :=
          if toBeUpdatedData.BookDept ≠ "" ∧ toBeUpdatedData.BookDept ≠ existingInventory.BookDept
          then some toBeUpdatedData.BookDept else none
        added_date :=
          if toBeUpdatedData.AddedDate ≠ 0 then some toBeUpdatedData.AddedDate else none
        count :=
          if toBeUpdatedData.Count ≠ existingInventory.Count
          then some toBeUpdatedData.Count else none }
    match call w (fun w =>
        (.ok (), { w with
          Inventory := updateOne (byBookName presentData.BookName) (setFields updateFields) w.Inventory })) with
    | (.error e, w) => (some e, w)
    | (.ok _, w) =>
      match call w (fun w => (findOne (byBookName presentData.BookName) w.Inventory, w)) with
      | (.error e, w) => (some e, w)
      | (.ok updatedInventory, w) =>
        match call w (fun w =>
            (.ok (), { w with
              Books := updateMany (byEmbeddedName existingInventory.BookName)
                (setInventoryPtr updatedInventory) w.Books })) with
        | (.error e, w) => (some e, w)
        | (.ok _, w) => (none, w)

/-- `BookInventoryController.DeleteBook`.  The result is `none` when the call
panics: the book found has a nil `BookInventoryPtr`, which the code
dereferences. -/
def DeleteBook (w : World) (bookID : String) : Option (GoError × World) :=
  match call w (fun w => (findOne (byBookID bookID) w.Books, w)) with
  | (.error e, w) => some (some e, w)
  | (.ok book, w) =>
    match book.BookInventoryPtr with
    | none => none
    | some ptr =>
      let bookName := ptr.BookName
      match call w (fun w => (.ok (), { w with Books := deleteOne (byBookID bookID) w.Books })) with
      | (.error e, w) => some (some e, w)
      | (.ok _, w) =>
        match call w (fun w =>
            (.ok (), { w with Inventory := updateOne (byBookName bookName) (incCount (-1)) w.Inventory })) with
        | (.error e, w) => some (some e, w)
        | (.ok _, w) =>
          match call w (fun w => (findOne (byBookName bookName) w.Inventory, w)) with
          | (.error e, w) => some (some e, w)
          | (.ok updatedInventory, w) =>
            match call w (fun w =>
                (.ok (), { w with
                  Books := updateMany (byEmbeddedName bookName) (setInventoryPtr updatedInventory) w.Books })) with
            | (.error e, w) => some (some e, w)
            | (.ok _, w) => some (none, w)

/-- The modifier `{"$set": {"book_status": s}}` on a document of `library.books`. -/
def setBookStatus (s : Bool) (d : LibraryBook) : LibraryBook :=
  { d with book := { d.book with BookStatus := s } }

/-- The filter `{"_id": bookID}`. -/
def byObjectID (bookID : ObjectID) (d : LibraryBook) : Bool := decide (d._id = bookID)

/-- `BookInventoryController.Borrow`; the student argument is not used. -/
def Borrow {Student : Type} (w : World) (bookID : ObjectID) (_student : Option Student) :
    GoError × World :=
  match call w (fun w =>
      ((.ok () : Except StoreErr Unit),
        { w with LibraryBooks := updateOne (byObjectID bookID) (setBookStatus false) w.LibraryBooks })) with
  | (.error e, w) => (some e, w)
  | (.ok _, w) => (none, w)

/-- `BookInventoryController.Return`; the student argument is not used. -/
def Return {Student : Type} (w : World) (bookID : ObjectID) (_student : Option Student) :
    GoError × World :=
  match call w (fun w =>
      ((.ok () : Except StoreErr Unit),
        { w with LibraryBooks := updateOne (byObjectID bookID) (setBookStatus true) w.LibraryBooks })) with
  | (.error e, w) => (some e, w)
  | (.ok _, w) => (none, w)

/-- The inventory invariant of the data model: the `count` of every aggregate
is the number of `Books` documents whose embedded snapshot carries its
`book_name`. -/
def InventoryInvariant (w : World) : Prop :=
  ∀ i ∈ w.Inventory, i.Count = ((w.Books.filter (byEmbeddedName i.BookName)).length : Int)

instance (w : World) : Decidable (InventoryInvariant w) :=
  inferInstanceAs (Decidable (∀ i ∈ w.Inventory,
    i.Count = ((w.Books.filter (byEmbeddedName i.BookName)).length : Int)))

/-! ## Concrete stores -/

/-- A store whose one Book carries a snapshot that differs from its aggregate
(the aggregate's count is 0). -/
def staleStore : World :=
  { Books := [⟨"b1", true, some ⟨"T", "a", "d", 6, 1⟩⟩]
    Inventory := [⟨"T", "a", "d", 5, 0⟩]
    LibraryBooks := []
    faults := []
    clock := fun n => 10 + n }

/-- A store whose one Book carries the snapshot of its aggregate, of count 3. -/
def syncedStore : World :=
  { Books := [⟨"b1", true, some ⟨"T", "a", "d", 5, 3⟩⟩]
    Inventory := [⟨"T", "a", "d", 5, 3⟩]
    LibraryBooks := []
    faults := []
    clock := fun n => 10 + n }

/-- A store with one aggregate, named "A", and one Book that embeds it. -/
def renameStore : World :=
  { Books := [⟨"b1", true, some ⟨"A", "a", "d", 5, 1⟩⟩]
    Inventory := [⟨"A", "a", "d", 5, 1⟩]
    LibraryBooks := []
    faults := []
    clock := fun n => 10 + n }

/-- A `library.books` collection with one borrowed Book (status false) and one
available Book. -/
def lendingStore : World :=
  { Books := []
    Inventory := []
    LibraryBooks := [⟨1, ⟨"b1", false, none⟩⟩, ⟨2, ⟨"b2", true, none⟩⟩]
    faults := []
    clock := fun n => 10 + n }

/-- A store that satisfies the inventory invariant: one aggregate "U" of
count 1 and the one Book that embeds it. -/
def consistentStore : World :=
  { Books := [⟨"b1", true, some ⟨"U", "a", "d", 5, 1⟩⟩]
    Inventory := [⟨"U", "a", "d", 5, 1⟩]
    LibraryBooks := []
    faults := []
    clock := fun n => 10 + n }

/-- A store holding the Book "b1", on which the next store call is scheduled
to fail with an error that is not the not-found error. -/
def faultyLookupStore : World :=
  { Books := [⟨"b1", true, some ⟨"U", "a", "d", 5, 1⟩⟩]
    Inventory := [⟨"U", "a", "d", 5, 1⟩]
    LibraryBooks := []
    faults := [some (.failure 7)]
    clock := fun n => 10 + n }

/-- A store whose Book "b9" embeds the title "Gone", which has no aggregate. -/
def orphanStore : World :=
  { Books := [⟨"b1", true, some ⟨"U", "a", "d", 5, 1⟩⟩, ⟨"b9", true, some ⟨"Gone", "a", "d", 3, 1⟩⟩]
    Inventory := [⟨"U", "a", "d", 5, 1⟩]
    LibraryBooks := []
    faults := []
    clock := fun n => 10 + n }

/-- A store whose aggregate "U" has count 0 although a Book embeds it. -/
def drainedStore : World :=
  { Books := [⟨"b1", true, some ⟨"U", "a", "d", 5, 0⟩⟩, ⟨"b2", false, some ⟨"V", "a", "d", 7, 1⟩⟩]
    Inventory := [⟨"V", "a", "d", 7, 1⟩, ⟨"U", "a", "d", 5, 0⟩]
    LibraryBooks := []
    faults := []
    clock := fun n => 10 + n }

/-! ## Facts about the collection operations -/

theorem findOne_ok_split {α : Type} (p : α → Bool) (c : List α) (a : α)
    (h : findOne p c = .ok a) :
    ∃ pre post, c = pre ++ a :: post ∧ (∀ x ∈ pre, p x = false) ∧ p a = true := by
  induction c with
  | nil => simp [findOne] at h
  | cons x xs ih =>
    by_cases hx : p x = true
    · have hxa : x = a := by
        simpa [findOne, List.find?, hx] using h
      exact ⟨[], xs, by simp [hxa], by simp, hxa ▸ hx⟩
    · have hx0 : p x = false := by simpa using hx
      have h2 : findOne p xs = .ok a := by
        simpa [findOne, List.find?, hx0] using h
      obtain ⟨pre, post, hc, hpre, hpa⟩ := ih h2
      refine ⟨x :: pre, post, by simp [hc], ?_, hpa⟩
      intro y hy
      rcases List.mem_cons.1 hy with rfl | hy
      · exact hx0
      · exact hpre y hy

theorem findOne_split {α : Type} (p : α → Bool) (pre post : List α) (a : α)
    (hpre : ∀ x ∈ pre, p x = false) (hpa : p a = true) :
    findOne p (pre ++ a :: post) = .ok a := by
  induction pre with
  | nil => simp [findOne, List.find?, hpa]
  | cons x xs ih =>
    have hx : p x = false := hpre x (List.mem_cons_self _ _)
    have := ih (fun y hy => hpre y (List.mem_cons_of_mem _ hy))
    simpa [findOne, List.find?, hx] using this

theorem findOne_none {α : Type} (p : α → Bool) (c : List α)
    (h : ∀ x ∈ c, p x = false) : findOne p c = .error .ErrNoDocuments := by
  induction c with
  | nil => simp [findOne]
  | cons x xs ih =>
    have hx : p x = false := h x (List.mem_cons_self _ _)
    have := ih (fun y hy => h y (List.mem_cons_of_mem _ hy))
    simpa [findOne, List.find?, hx] using this

theorem findOne_of_mem {α : Type} (p : α → Bool) (c : List α) (b : α)
    (hb : b ∈ c) (hp : p b = true) : ∃ a, findOne p c = .ok a := by
  induction c with
  | nil => simp at hb
  | cons x xs ih =>
    by_cases hx : p x = true
    · exact ⟨x, by simp [findOne, List.find?, hx]⟩
    · have hx0 : p x = false := by simpa using hx
      rcases List.mem_cons.1 hb with rfl | hb
      · exact absurd hp hx
      · obtain ⟨a, ha⟩ := ih hb
        exact ⟨a, by simpa [findOne, List.find?, hx0] using ha⟩

theorem updateOne_split {α : Type} (p : α → Bool) (f : α → α) (pre post : List α) (a : α)
    (hpre : ∀ x ∈ pre, p x = false) (hpa : p a = true) :
    updateOne p f (pre ++ a :: post) = pre ++ f a :: post := by
  induction pre with
  | nil => simp [updateOne, hpa]
  | cons x xs ih =>
    have hx : p x = false := hpre x (List.mem_cons_self _ _)
    simp [updateOne, hx, ih (fun y hy => hpre y (List.mem_cons_of_mem _ hy))]

theorem updateOne_none {α : Type} (p : α → Bool) (f : α → α) (c : List α)
    (h : ∀ x ∈ c, p x = false) : updateOne p f c = c := by
  induction c with
  | nil => simp [updateOne]
  | cons x xs ih =>
    have hx : p x = false := h x (List.mem_cons_self _ _)
    simp [updateOne, hx, ih (fun y hy => h y (List.mem_cons_of_mem _ hy))]

theorem deleteOne_split {α : Type} (p : α → Bool) (pre post : List α) (a : α)
    (hpre : ∀ x ∈ pre, p x = false) (hpa : p a = true) :
    deleteOne p (pre ++ a :: post) = pre ++ post := by
  induction pre with
  | nil => simp [deleteOne, hpa]
  | cons x xs ih =>
    have hx : p x = false := hpre x (List.mem_cons_self _ _)
    simp [deleteOne, hx, ih (fun y hy => hpre y (List.mem_cons_of_mem _ hy))]

theorem filter_none {α : Type} (p : α → Bool) (c : List α)
    (h : ∀ x ∈ c, p x = false) : c.filter p = [] := by
  induction c with
  | nil => simp
  | cons x xs ih =>
    have hx : p x = false := h x (List.mem_cons_self _ _)
    simp [List.filter, hx, ih (fun y hy => h y (List.mem_cons_of_mem _ hy))]

theorem filter_singleton_split {α : Type} (p : α → Bool) (c : List α) (b : α)
    (h : c.filter p = [b]) :
    ∃ pre post, c = pre ++ b :: post ∧ (∀ x ∈ pre, p x = false) ∧ p b = true ∧
      (∀ x ∈ post, p x = false) := by
  induction c with
  | nil => simp at h
  | cons x xs ih =>
    by_cases hx : p x = true
    · rw [List.filter_cons_of_pos hx] at h
      have hxb : x = b := (List.cons.inj h).1
      have hnil : xs.filter p = [] := (List.cons.inj h).2
      refine ⟨[], xs, by simp [hxb], by simp, hxb ▸ hx, ?_⟩
      intro y hy
      have := List.filter_eq_nil_iff.1 hnil y hy
      simpa using this
    · have hx0 : p x = false := by simpa using hx
      rw [List.filter_cons_of_neg hx] at h
      obtain ⟨pre, post, hc, hpre, hpb, hpost⟩ := ih h
      refine ⟨x :: pre, post, by simp [hc], ?_, hpb, hpost⟩
      intro y hy
      rcases List.mem_cons.1 hy with rfl | hy
      · exact hx0
      · exact hpre y hy

/-! ## AddBook -/

/-- The world a failure-free `AddBook` with a fresh id leaves when the title
has no aggregate yet. -/
theorem AddBook_fresh_absent (w : World) (bookID T author dept : String)
    (hf : w.faults = [])
    (hid : ∀ b ∈ w.Books, b.BookID ≠ bookID)
    (hT : ∀ i ∈ w.Inventory, i.BookName ≠ T) :
    AddBook w bookID T author dept =
      (("Book added successfully", none),
        { w with
          Inventory := w.Inventory ++ [⟨T, author, dept, w.clock 0, 1⟩]
          Books := (w.Books ++ [Book.mk bookID true (some ⟨T, author, dept, w.clock 1, 1⟩)]).map
            (setInventoryPtr ⟨T, author, dept, w.clock 1, 1⟩)
          clock := fun n => w.clock (n + 1 + 1) }) := by
  have h1 : findOne (byBookID bookID) w.Books = .error .ErrNoDocuments :=
    findOne_none _ _ (fun b hb => by simpa [byBookID] using hid b hb)
  have h2 : findOne (byBookName T) w.Inventory = .error .ErrNoDocuments :=
    findOne_none _ _ (fun i hi => by simpa [byBookName] using hT i hi)
  simp [AddBook, call, hf, h1, h2, now, insertOne, updateMany]

/-- The world a failure-free `AddBook` with a fresh id leaves when the title
already has an aggregate. -/
theorem AddBook_fresh_present (w : World) (bookID T author dept : String)
    (agg : BookInventory)
    (hf : w.faults = [])
    (hid : ∀ b ∈ w.Books, b.BookID ≠ bookID)
    (hagg : findOne (byBookName T) w.Inventory = .ok agg) :
    AddBook w bookID T author dept =
      (("Book added successfully", none),
        { w with
          Inventory := updateOne (byBookName T) (incCount 1) w.Inventory
          Books := (w.Books ++ [Book.mk bookID true (some ⟨T, author, dept, w.clock 0, 1⟩)]).map
            (setInventoryPtr ⟨T, author, dept, w.clock 0, 1⟩)
          clock := fun n => w.clock (n + 1) }) := by
  have h1 : findOne (byBookID bookID) w.Books = .error .ErrNoDocuments :=
    findOne_none _ _ (fun b hb => by simpa [byBookID] using hid b hb)
  simp [AddBook, call, hf, h1, hagg, now, insertOne, updateMany]

/-- C1: when a Book with `book_id = bookID` is already stored and the lookup
by `book_id` does not fail, `AddBook` returns the message
"Book with ID <bookID> already exists" with a nil error and mutates nothing:
the `Books` and `BookInventory` collections (and `library.books`) are the same
before and after the call. -/
theorem AddBook_already_exists (w : World) (bookID bookName author bookDept : String)
    (hex : ∃ b ∈ w.Books, b.BookID = bookID)
    (hf : ∀ e, w.faults.head? ≠ some (some e)) :
    (AddBook w bookID bookName author bookDept).1
        = ("Book with ID " ++ bookID ++ " already exists", none) ∧
      (AddBook w bookID bookName author bookDept).2.Books = w.Books ∧
      (AddBook w bookID bookName author bookDept).2.Inventory = w.Inventory ∧
      (AddBook w bookID bookName author bookDept).2.LibraryBooks = w.LibraryBooks := by
  obtain ⟨b, hb, hid⟩ := hex
  obtain ⟨a, ha⟩ := findOne_of_mem (byBookID bookID) w.Books b hb (by simp [byBookID, hid])
  cases hfs : w.faults with
  | nil => simp [AddBook, call, hfs, ha]
  | cons f fs =>
    cases f with
    | none => simp [AddBook, call, hfs, ha]
    | some e => exact absurd (by simp [hfs]) (hf e)

/-- C2: with no Book of id `bookID` and no aggregate named `T` in the store, a
failure-free `AddBook bookID T author dept` returns "Book added successfully",
appends one aggregate `T` with count 1 and the supplied author and department
to an otherwise untouched `BookInventory` collection (so exactly one document
there is named `T`), and leaves exactly one Book with id `bookID`, whose
status is true. -/
theorem AddBook_new_title (w : World) (bookID T author dept : String)
    (hf : w.faults = [])
    (hid : ∀ b ∈ w.Books, b.BookID ≠ bookID)
    (hT : ∀ i ∈ w.Inventory, i.BookName ≠ T) :
    (AddBook w bookID T author dept).1 = ("Book added successfully", none) ∧
      (AddBook w bookID T author dept).2.Inventory
        = w.Inventory ++ [⟨T, author, dept, w.clock 0, 1⟩] ∧
      (AddBook w bookID T author dept).2.Inventory.filter (byBookName T)
        = [⟨T, author, dept, w.clock 0, 1⟩] ∧
      (AddBook w bookID T author dept).2.Books.filter (byBookID bookID)
        = [⟨bookID, true, some ⟨T, author, dept, w.clock 1, 1⟩⟩] := by
  have h1 : findOne (byBookID bookID) w.Books = .error .ErrNoDocuments :=
    findOne_none _ _ (fun b hb => by simpa [byBookID] using hid b hb)
  have h2 : findOne (byBookName T) w.Inventory = .error .ErrNoDocuments :=
    findOne_none _ _ (fun i hi => by simpa [byBookName] using hT i hi)
  have h3 : w.Inventory.filter (byBookName T) = [] :=
    filter_none _ _ (fun i hi => by simpa [byBookName] using hT i hi)
  have h4 : (w.Books.map (setInventoryPtr ⟨T, author, dept, w.clock 1, 1⟩)).filter
      (byBookID bookID) = [] :=
    filter_none _ _ (fun b hb => by
      obtain ⟨b0, hb0, rfl⟩ := List.mem_map.1 hb
      simpa [byBookID, setInventoryPtr] using hid b0 hb0)
  simp [AddBook, call, hf, h1, h2, now, insertOne, updateMany, List.filter_append, h3, h4,
    byBookName, byBookID, setInventoryPtr]
  exact hid

/-- C3: on a store without a Book of id `bookID`, a failure-free
`AddBook bookID T ..` that finds an aggregate named `T` with count `N` leaves
that aggregate with count `N + 1` and the `BookInventory` collection
otherwise as it was (no document is created); and when `T` had no aggregate,
a second `AddBook` for `T` with another fresh id leaves the one aggregate of
`T` with count 2. -/
theorem AddBook_existing_title (w : World) (bookID T author dept : String)
    (hf : w.faults = [])
    (hid : ∀ b ∈ w.Books, b.BookID ≠ bookID) :
    (∀ agg, findOne (byBookName T) w.Inventory = .ok agg →
      (AddBook w bookID T author dept).1 = ("Book added successfully", none) ∧
      ∃ pre post, w.Inventory = pre ++ agg :: post ∧ (∀ i ∈ pre, i.BookName ≠ T) ∧
        (AddBook w bookID T author dept).2.Inventory
          = pre ++ { agg with Count := agg.Count + 1 } :: post) ∧
    (∀ id2 author2 dept2, (∀ i ∈ w.Inventory, i.BookName ≠ T) →
      (∀ b ∈ w.Books, b.BookID ≠ id2) → id2 ≠ bookID →
      (AddBook (AddBook w bookID T author dept).2 id2 T author2 dept2).1
          = ("Book added successfully", none) ∧
        (AddBook (AddBook w bookID T author dept).2 id2 T author2 dept2).2.Inventory
          = w.Inventory ++ [⟨T, author, dept, w.clock 0, 2⟩]) := by
  constructor
  · intro agg hagg
    obtain ⟨pre, post, hc, hpre, hpa⟩ := findOne_ok_split _ _ _ hagg
    rw [AddBook_fresh_present w bookID T author dept agg hf hid hagg]
    refine ⟨rfl, pre, post, hc, fun i hi => by simpa [byBookName] using hpre i hi, ?_⟩
    simp only [hc]
    rw [updateOne_split _ _ _ _ _ hpre hpa]
    rfl
  · intro id2 author2 dept2 hT hid2 hne
    have hw := AddBook_fresh_absent w bookID T author dept hf hid hT
    obtain ⟨w1, hw1, hb1, hi1, hf1⟩ : ∃ w1, (AddBook w bookID T author dept).2 = w1 ∧
        w1.Books = (w.Books ++ [Book.mk bookID true (some ⟨T, author, dept, w.clock 1, 1⟩)]).map
          (setInventoryPtr ⟨T, author, dept, w.clock 1, 1⟩) ∧
        w1.Inventory = w.Inventory ++ [⟨T, author, dept, w.clock 0, 1⟩] ∧
        w1.faults = [] :=
      ⟨_, rfl, by rw [hw], by rw [hw], by rw [hw]; exact hf⟩
    rw [hw1]
    have hpre : ∀ x ∈ w.Inventory, byBookName T x = false :=
      fun i hi => by simpa [byBookName] using hT i hi
    have hfind : findOne (byBookName T) w1.Inventory = .ok ⟨T, author, dept, w.clock 0, 1⟩ := by
      rw [hi1]
      exact findOne_split (byBookName T) w.Inventory [] _ hpre (by simp [byBookName])
    have hfresh : ∀ b ∈ w1.Books, b.BookID ≠ id2 := by
      intro b hb
      rw [hb1] at hb
      obtain ⟨b0, hb0, rfl⟩ := List.mem_map.1 hb
      rcases List.mem_append.1 hb0 with h | h
      · simpa [setInventoryPtr] using hid2 b0 h
      · have : b0 = ⟨bookID, true, some ⟨T, author, dept, w.clock 1, 1⟩⟩ := by simpa using h
        subst this
        simpa [setInventoryPtr] using fun h => hne h.symm
    rw [AddBook_fresh_present w1 id2 T author2 dept2 _ hf1 hfresh hfind]
    refine ⟨rfl, ?_⟩
    simp only [hi1]
    rw [updateOne_split _ _ _ _ _ hpre (by simp [byBookName])]
    rfl

/-! ## DeleteBook -/

/-- The run of a failure-free `DeleteBook` on a Book that is found and carries
an embedded snapshot: the delete and the decrement are applied, and the
outcome is decided by the re-read of the aggregate. -/
theorem DeleteBook_found (w : World) (bookID : String) (b : Book) (snap : BookInventory)
    (hf : w.faults = [])
    (hb : findOne (byBookID bookID) w.Books = .ok b)
    (hs : b.BookInventoryPtr = some snap) :
    DeleteBook w bookID =
      match findOne (byBookName snap.BookName)
          (updateOne (byBookName snap.BookName) (incCount (-1)) w.Inventory) with
      | .error e =>
        some (some e, { w with
          Books := deleteOne (byBookID bookID) w.Books
          Inventory := updateOne (byBookName snap.BookName) (incCount (-1)) w.Inventory })
      | .ok u =>
        some (none, { w with
          Books := updateMany (byEmbeddedName snap.BookName) (setInventoryPtr u)
            (deleteOne (byBookID bookID) w.Books)
          Inventory := updateOne (byBookName snap.BookName) (incCount (-1)) w.Inventory }) := by
  simp only [DeleteBook, call, hf, hb, hs]
  cases findOne (byBookName snap.BookName)
      (updateOne (byBookName snap.BookName) (incCount (-1)) w.Inventory) <;> rfl

/-- C5: when exactly one Book `b` has id `bookID` and an aggregate `agg` is
named like the title embedded in `b`, a failure-free `DeleteBook bookID`
returns no error, removes `b` and no other Book (the remaining Books keep
their ids and order, none has id `bookID`), and leaves `agg` with its count
decreased by one, whatever integer it was; the other aggregates are
untouched. -/
theorem DeleteBook_decrements (w : World) (bookID : String) (b : Book)
    (snap agg : BookInventory)
    (hf : w.faults = [])
    (hone : w.Books.filter (byBookID bookID) = [b])
    (hs : b.BookInventoryPtr = some snap)
    (hagg : findOne (byBookName snap.BookName) w.Inventory = .ok agg) :
    ∃ pre post ipre ipost w',
      w.Books = pre ++ b :: post ∧
      w.Inventory = ipre ++ agg :: ipost ∧ (∀ i ∈ ipre, i.BookName ≠ snap.BookName) ∧
      DeleteBook w bookID = some (none, w') ∧
      w'.Inventory = ipre ++ { agg with Count := agg.Count - 1 } :: ipost ∧
      w'.Books.map Book.BookID = (pre ++ post).map Book.BookID ∧
      w'.Books.length + 1 = w.Books.length ∧
      (∀ x ∈ w'.Books, x.BookID ≠ bookID) := by
  obtain ⟨pre, post, hc, hpre, hpb, hpost⟩ := filter_singleton_split _ _ _ hone
  obtain ⟨ipre, ipost, hic, hipre, hipa⟩ := findOne_ok_split _ _ _ hagg
  have hb : findOne (byBookID bookID) w.Books = .ok b := by
    rw [hc]; exact findOne_split _ _ _ _ hpre hpb
  have hupd : updateOne (byBookName snap.BookName) (incCount (-1)) w.Inventory
      = ipre ++ { agg with Count := agg.Count - 1 } :: ipost := by
    rw [hic, updateOne_split _ _ _ _ _ hipre hipa]; rfl
  have hre : findOne (byBookName snap.BookName)
      (updateOne (byBookName snap.BookName) (incCount (-1)) w.Inventory)
      = .ok { agg with Count := agg.Count - 1 } := by
    rw [hupd]
    exact findOne_split _ _ _ _ hipre (by simpa [byBookName] using hipa)
  have hdel : deleteOne (byBookID bookID) w.Books = pre ++ post := by
    rw [hc]; exact deleteOne_split _ _ _ _ hpre hpb
  have hrun := DeleteBook_found w bookID b snap hf hb hs
  rw [hre] at hrun
  refine ⟨pre, post, ipre, ipost, _, hc, hic,
    fun i hi => by simpa [byBookName] using hipre i hi, hrun, hupd, ?_, ?_, ?_⟩
  · simp only [hdel, updateMany, List.map_map]
    apply List.map_congr_left
    intro x _
    by_cases hx : byEmbeddedName snap.BookName x = true <;> simp [hx, setInventoryPtr]
  · simp only [updateMany, List.length_map, hdel]
    rw [hc]
    simp only [List.length_append, List.length_cons]
    omega
  · intro x hx
    simp only [hdel, updateMany] at hx
    obtain ⟨x0, hx0, rfl⟩ := List.mem_map.1 hx
    have hx0p : byBookID bookID x0 = false := by
      rcases List.mem_append.1 hx0 with h | h
      · exact hpre x0 h
      · exact hpost x0 h
    by_cases hx1 : byEmbeddedName snap.BookName x0 = true
    · simpa [hx1, setInventoryPtr, byBookID] using hx0p
    · simpa [hx1, byBookID] using hx0p

/-- C10: `DeleteBook` is not atomic on error.  When the Book of id `bookID`
embeds a title that has no aggregate, a run with no store failure deletes the
Book, finds nothing to decrement, and returns the not-found error of the
re-read: the Book stays removed, the `BookInventory` collection is as it
was. -/
theorem DeleteBook_not_atomic (w : World) (bookID : String) (b : Book) (snap : BookInventory)
    (hf : w.faults = [])
    (hb : findOne (byBookID bookID) w.Books = .ok b)
    (hs : b.BookInventoryPtr = some snap)
    (hno : ∀ i ∈ w.Inventory, i.BookName ≠ snap.BookName) :
    ∃ pre post w',
      w.Books = pre ++ b :: post ∧ (∀ x ∈ pre, x.BookID ≠ bookID) ∧
      DeleteBook w bookID = some (some .ErrNoDocuments, w') ∧
      w'.Books = pre ++ post ∧ w'.Inventory = w.Inventory := by
  obtain ⟨pre, post, hc, hpre, hpb⟩ := findOne_ok_split _ _ _ hb
  have hnone : ∀ i ∈ w.Inventory, byBookName snap.BookName i = false :=
    fun i hi => by simpa [byBookName] using hno i hi
  have hupd := updateOne_none (byBookName snap.BookName) (incCount (-1)) w.Inventory hnone
  have hrun := DeleteBook_found w bookID b snap hf hb hs
  rw [hupd, findOne_none _ _ hnone] at hrun
  refine ⟨pre, post, _, hc, fun x hx => by simpa [byBookID] using hpre x hx, hrun, ?_, rfl⟩
  simp only [hc]
  exact deleteOne_split _ _ _ _ hpre hpb

/-! ## UpdateBook -/

/-- The run of a failure-free `UpdateBook` with the all-zero patch when the
aggregate is found: the only field the patch can touch is `count`. -/
theorem UpdateBook_empty_run (w : World) (presentData agg : BookInventory)
    (hf : w.faults = [])
    (hagg : findOne (byBookName presentData.BookName) w.Inventory = .ok agg) :
    UpdateBook w presentData ⟨"", "", "", 0, 0⟩ =
      (none, { w with
        Inventory := updateOne (byBookName presentData.BookName)
          (fun i => { i with Count := if (0 : Int) ≠ agg.Count then 0 else i.Count }) w.Inventory
        Books := updateMany (byEmbeddedName presentData.BookName)
          (setInventoryPtr { agg with Count := if (0 : Int) ≠ agg.Count then 0 else agg.Count })
          w.Books }) := by
  obtain ⟨pre, post, hc, hpre, hpa⟩ := findOne_ok_split _ _ _ hagg
  have hname : agg.BookName = presentData.BookName := by simpa [byBookName] using hpa
  have hset : setFields ⟨none, none, none, none, if (0 : Int) ≠ agg.Count then some 0 else none⟩
      = fun i => { i with Count := if (0 : Int) ≠ agg.Count then 0 else i.Count } := by
    funext i
    by_cases h0 : (0 : Int) ≠ agg.Count <;> simp [setFields, h0]
  have hre : findOne (byBookName presentData.BookName)
      (updateOne (byBookName presentData.BookName)
        (fun i => { i with Count := if (0 : Int) ≠ agg.Count then 0 else i.Count }) w.Inventory)
      = .ok { agg with Count := if (0 : Int) ≠ agg.Count then 0 else agg.Count } := by
    rw [hc, updateOne_split _ _ _ _ _ hpre hpa]
    exact findOne_split _ _ _ _ hpre (by simpa [byBookName] using hname)
  simp only [ne_eq] at hset hre
  simp only [UpdateBook, call, hf, hagg, ne_eq, not_true_eq_false, false_and, if_false,
    hset, hre, hname]

/-- C4, as stated, fails: with the all-zero patch and the aggregate present,
`UpdateBook` returns no error but (1) replaces a Book's embedded snapshot that
differed from the aggregate, and (2) on a store whose aggregate has count 3
the aggregate and the snapshot are not what they were. -/
theorem UpdateBook_empty_patch_not_noop :
    (findOne (byBookName "T") staleStore.Inventory = .ok ⟨"T", "a", "d", 5, 0⟩ ∧
      (UpdateBook staleStore ⟨"T", "", "", 0, 0⟩ ⟨"", "", "", 0, 0⟩).1 = none ∧
      (UpdateBook staleStore ⟨"T", "", "", 0, 0⟩ ⟨"", "", "", 0, 0⟩).2.Books
        ≠ staleStore.Books) ∧
    (findOne (byBookName "T") syncedStore.Inventory = .ok ⟨"T", "a", "d", 5, 3⟩ ∧
      (UpdateBook syncedStore ⟨"T", "", "", 0, 0⟩ ⟨"", "", "", 0, 0⟩).1 = none ∧
      (UpdateBook syncedStore ⟨"T", "", "", 0, 0⟩ ⟨"", "", "", 0, 0⟩).2.Inventory
        ≠ syncedStore.Inventory ∧
      (UpdateBook syncedStore ⟨"T", "", "", 0, 0⟩ ⟨"", "", "", 0, 0⟩).2.Books
        ≠ syncedStore.Books) := by
  decide

/-- C4, amended: with the all-zero patch, on every store in which the
aggregate `agg` named `presentData.BookName` exists, a failure-free
`UpdateBook` returns no error; the aggregate keeps its name, author,
department and added date and every other aggregate is untouched; each Book
whose embedded name is that name gets the aggregate as re-read after the
update for snapshot and every other Book is untouched.  When the aggregate's
count is 0 the aggregate is unchanged, and the call is a no-op if moreover
those snapshots already were the aggregate. -/
theorem UpdateBook_empty_patch (w : World) (presentData agg : BookInventory)
    (hf : w.faults = [])
    (hagg : findOne (byBookName presentData.BookName) w.Inventory = .ok agg) :
    ∃ pre post agg',
      w.Inventory = pre ++ agg :: post ∧ (∀ i ∈ pre, i.BookName ≠ presentData.BookName) ∧
      (UpdateBook w presentData ⟨"", "", "", 0, 0⟩).1 = none ∧
      (UpdateBook w presentData ⟨"", "", "", 0, 0⟩).2.Inventory = pre ++ agg' :: post ∧
      agg'.BookName = agg.BookName ∧ agg'.Author = agg.Author ∧
      agg'.BookDept = agg.BookDept ∧ agg'.AddedDate = agg.AddedDate ∧
      (agg.Count = 0 → agg' = agg) ∧
      (UpdateBook w presentData ⟨"", "", "", 0, 0⟩).2.Books
        = w.Books.map (fun b =>
            if byEmbeddedName presentData.BookName b then { b with BookInventoryPtr := some agg' }
            else b) ∧
      (agg.Count = 0 →
        (∀ b ∈ w.Books, byEmbeddedName presentData.BookName b = true →
          b.BookInventoryPtr = some agg) →
        (UpdateBook w presentData ⟨"", "", "", 0, 0⟩).2.Books = w.Books ∧
        (UpdateBook w presentData ⟨"", "", "", 0, 0⟩).2.Inventory = w.Inventory) := by
  obtain ⟨pre, post, hc, hpre, hpa⟩ := findOne_ok_split _ _ _ hagg
  rw [UpdateBook_empty_run w presentData agg hf hagg]
  have hupd : updateOne (byBookName presentData.BookName)
      (fun i => { i with Count := if (0 : Int) ≠ agg.Count then 0 else i.Count }) w.Inventory
      = pre ++ { agg with Count := if (0 : Int) ≠ agg.Count then 0 else agg.Count } :: post := by
    rw [hc, updateOne_split _ _ _ _ _ hpre hpa]
  have hsame : agg.Count = 0 →
      ({ agg with Count := if (0 : Int) ≠ agg.Count then 0 else agg.Count } : BookInventory)
        = agg := by
    intro h0
    cases agg
    simp_all
  refine ⟨pre, post, { agg with Count := if (0 : Int) ≠ agg.Count then 0 else agg.Count },
    hc, fun i hi => by simpa [byBookName] using hpre i hi, rfl, hupd, rfl, rfl, rfl, rfl,
    hsame, rfl, ?_⟩
  intro h0 hsnap
  constructor
  · simp only [updateMany, hsame h0]
    conv_rhs => rw [← List.map_id w.Books]
    apply List.map_congr_left
    intro b hb
    by_cases hx : byEmbeddedName presentData.BookName b = true
    · have := hsnap b hb hx
      cases b
      simp_all [setInventoryPtr]
    · simp [hx]
  · simp only [hupd, hsame h0]
    exact hc.symm

/-- C8, the code at a renaming patch: exactly one aggregate is named "A", the
patch names it "B", no store call fails, and `UpdateBook` returns the
not-found error of its re-read (which still filters on "A"); the aggregate is
renamed, the Book's embedded snapshot is left as it was. -/
theorem UpdateBook_rename_returns_not_found :
    renameStore.Inventory.filter (byBookName "A") = [⟨"A", "a", "d", 5, 1⟩] ∧
    (UpdateBook renameStore ⟨"A", "a", "d", 5, 1⟩ ⟨"B", "", "", 0, 1⟩).1
      = some .ErrNoDocuments ∧
    (UpdateBook renameStore ⟨"A", "a", "d", 5, 1⟩ ⟨"B", "", "", 0, 1⟩).2.Inventory
      = [⟨"B", "a", "d", 5, 1⟩] ∧
    (UpdateBook renameStore ⟨"A", "a", "d", 5, 1⟩ ⟨"B", "", "", 0, 1⟩).2.Books
      = [⟨"b1", true, some ⟨"A", "a", "d", 5, 1⟩⟩] := by
  decide

/-! ## Borrow and Return -/

/-- C6, as stated, fails: the Book of `_id` 1 is stored with status false, and
after a failure-free `Borrow` then `Return` on that id its status is true. -/
theorem Borrow_Return_not_restoring :
    findOne (byObjectID 1) lendingStore.LibraryBooks = .ok ⟨1, ⟨"b1", false, none⟩⟩ ∧
    (Borrow lendingStore 1 (none : Option Unit)).1 = none ∧
    (Return (Borrow lendingStore 1 (none : Option Unit)).2 1 (none : Option Unit)).1 = none ∧
    findOne (byObjectID 1)
        (Return (Borrow lendingStore 1 (none : Option Unit)).2 1
          (none : Option Unit)).2.LibraryBooks
      = .ok ⟨1, ⟨"b1", true, none⟩⟩ := by
  decide

/-- C6, amended: for every store and every id `bookID` found in
`library.books`, a failure-free `Borrow bookID s` followed by
`Return bookID s` returns no error twice and leaves the Book found under that
id with status true, every other document unchanged; the collection is as
it was before the `Borrow` when that Book's status was true. -/
theorem Borrow_Return_status (Student : Type) (w : World) (bookID : ObjectID)
    (s : Option Student) (d : LibraryBook)
    (hf : w.faults = [])
    (hd : findOne (byObjectID bookID) w.LibraryBooks = .ok d) :
    (Borrow w bookID s).1 = none ∧
    (Return (Borrow w bookID s).2 bookID s).1 = none ∧
    ∃ pre post,
      w.LibraryBooks = pre ++ d :: post ∧ (∀ x ∈ pre, x._id ≠ bookID) ∧
      (Return (Borrow w bookID s).2 bookID s).2.LibraryBooks
        = pre ++ { d with book := { d.book with BookStatus := true } } :: post ∧
      (d.book.BookStatus = true →
        (Return (Borrow w bookID s).2 bookID s).2.LibraryBooks = w.LibraryBooks) := by
  obtain ⟨pre, post, hc, hpre, hpa⟩ := findOne_ok_split _ _ _ hd
  have hfinal : (Return (Borrow w bookID s).2 bookID s).2.LibraryBooks
      = pre ++ { d with book := { d.book with BookStatus := true } } :: post := by
    simp only [Borrow, Return, call, hf, hc]
    rw [updateOne_split _ _ _ _ _ hpre hpa,
      updateOne_split _ _ _ _ _ hpre (by simpa [byObjectID, setBookStatus] using hpa)]
    rfl
  refine ⟨by simp [Borrow, call, hf], by simp [Borrow, Return, call, hf], pre, post, hc,
    fun x hx => by simpa [byObjectID] using hpre x hx, hfinal, ?_⟩
  intro ht
  rw [hfinal, hc]
  obtain ⟨i, b⟩ := d
  obtain ⟨bid, st, ptr⟩ := b
  simp only at ht
  subst ht
  rfl

/-! ## The fan-out and the first lookup of AddBook -/

/-- C7, the code at a failing input: the store satisfies the inventory
invariant, "b2" is a fresh id, `AddBook "b2" "T"` succeeds without any store
failure, and the invariant no longer holds: the fan-out has put the snapshot
of "T" into the Book of title "U" as well, so "U" (count 1) is embedded by no
Book and "T" (count 1) by two. -/
theorem AddBook_breaks_invariant :
    InventoryInvariant consistentStore ∧
    (∀ b ∈ consistentStore.Books, b.BookID ≠ "b2") ∧
    (AddBook consistentStore "b2" "T" "x" "y").1 = ("Book added successfully", none) ∧
    (AddBook consistentStore "b2" "T" "x" "y").2.Inventory
      = [⟨"U", "a", "d", 5, 1⟩, ⟨"T", "x", "y", 10, 1⟩] ∧
    (AddBook consistentStore "b2" "T" "x" "y").2.Books
      = [⟨"b1", true, some ⟨"T", "x", "y", 11, 1⟩⟩, ⟨"b2", true, some ⟨"T", "x", "y", 11, 1⟩⟩] ∧
    ¬ InventoryInvariant (AddBook consistentStore "b2" "T" "x" "y").2 := by
  decide

/-- C9, the code at a failing input: the lookup in `Books` by `book_id` fails
with the error `failure 7`, and `AddBook` does not return it: it goes on as
if the Book were absent, increments the aggregate, inserts a second Book of
id "b1" and reports success. -/
theorem AddBook_swallows_books_lookup_error :
    (AddBook faultyLookupStore "b1" "U" "a" "d").1 = ("Book added successfully", none) ∧
    (AddBook faultyLookupStore "b1" "U" "a" "d").2.Inventory = [⟨"U", "a", "d", 5, 2⟩] ∧
    (AddBook faultyLookupStore "b1" "U" "a" "d").2.Books
      = [⟨"b1", true, some ⟨"U", "a", "d", 10, 1⟩⟩, ⟨"b1", true, some ⟨"U", "a", "d", 10, 1⟩⟩] := by
  decide

/-- The part of the propagation policy `AddBook` does implement: when the
lookup in `Books` runs and finds nothing and the lookup in `BookInventory`
fails with an error other than not-found, `AddBook` returns that error with an
empty message and leaves every collection as it was. -/
theorem AddBook_inventory_lookup_error (w : World) (bookID bookName author bookDept : String)
    (e : StoreErr) (rest : List (Option StoreErr))
    (he : e ≠ .ErrNoDocuments)
    (hf : w.faults = none :: some e :: rest)
    (hid : ∀ b ∈ w.Books, b.BookID ≠ bookID) :
    (AddBook w bookID bookName author bookDept).1 = ("", some e) ∧
      (AddBook w bookID bookName author bookDept).2.Books = w.Books ∧
      (AddBook w bookID bookName author bookDept).2.Inventory = w.Inventory := by
  have h1 : findOne (byBookID bookID) w.Books = .error .ErrNoDocuments :=
    findOne_none _ _ (fun b hb => by simpa [byBookID] using hid b hb)
  cases e with
  | ErrNoDocuments => exact absurd rfl he
  | failure code => simp [AddBook, call, hf, h1]

/-! ## The theorems at concrete stores -/

theorem AddBook_already_exists_witness :
    (∃ b ∈ consistentStore.Books, b.BookID = "b1") ∧
    (AddBook consistentStore "b1" "T" "x" "y").1 = ("Book with ID b1 already exists", none) ∧
    (AddBook consistentStore "b1" "T" "x" "y").2.Books = consistentStore.Books ∧
    (AddBook consistentStore "b1" "T" "x" "y").2.Inventory = consistentStore.Inventory ∧
    (AddBook consistentStore "b1" "T" "x" "y").2.LibraryBooks = consistentStore.LibraryBooks :=
  ⟨⟨_, List.mem_cons_self _ _, rfl⟩,
    AddBook_already_exists consistentStore "b1" "T" "x" "y" ⟨_, List.mem_cons_self _ _, rfl⟩
      (by intro e; simp [consistentStore])⟩

theorem AddBook_new_title_witness :
    (AddBook consistentStore "b2" "T" "x" "y").1 = ("Book added successfully", none) ∧
    (AddBook consistentStore "b2" "T" "x" "y").2.Inventory
      = consistentStore.Inventory ++ [⟨"T", "x", "y", 10, 1⟩] ∧
    (AddBook consistentStore "b2" "T" "x" "y").2.Inventory.filter (byBookName "T")
      = [⟨"T", "x", "y", 10, 1⟩] ∧
    (AddBook consistentStore "b2" "T" "x" "y").2.Books.filter (byBookID "b2")
      = [⟨"b2", true, some ⟨"T", "x", "y", 11, 1⟩⟩] :=
  AddBook_new_title consistentStore "b2" "T" "x" "y" rfl (by decide) (by decide)

theorem AddBook_existing_title_witness :
    ((AddBook consistentStore "b2" "U" "x" "y").1 = ("Book added successfully", none) ∧
      ∃ pre post, consistentStore.Inventory = pre ++ ⟨"U", "a", "d", 5, 1⟩ :: post ∧
        (∀ i ∈ pre, i.BookName ≠ "U") ∧
        (AddBook consistentStore "b2" "U" "x" "y").2.Inventory
          = pre ++ ⟨"U", "a", "d", 5, 1 + 1⟩ :: post) ∧
    ((AddBook (AddBook consistentStore "b2" "T" "x" "y").2 "b3" "T" "p" "q").1
        = ("Book added successfully", none) ∧
      (AddBook (AddBook consistentStore "b2" "T" "x" "y").2 "b3" "T" "p" "q").2.Inventory
        = consistentStore.Inventory ++ [⟨"T", "x", "y", 10, 2⟩]) :=
  ⟨(AddBook_existing_title consistentStore "b2" "U" "x" "y" rfl (by decide)).1
      ⟨"U", "a", "d", 5, 1⟩ (by decide),
    (AddBook_existing_title consistentStore "b2" "T" "x" "y" rfl (by decide)).2
      "b3" "p" "q" (by decide) (by decide) (by decide)⟩

theorem UpdateBook_empty_patch_witness :
    ∃ pre post agg',
      drainedStore.Inventory = pre ++ ⟨"U", "a", "d", 5, 0⟩ :: post ∧
      (∀ i ∈ pre, i.BookName ≠ "U") ∧
      (UpdateBook drainedStore ⟨"U", "", "", 0, 0⟩ ⟨"", "", "", 0, 0⟩).1 = none ∧
      (UpdateBook drainedStore ⟨"U", "", "", 0, 0⟩ ⟨"", "", "", 0, 0⟩).2.Inventory
        = pre ++ agg' :: post ∧
      agg'.BookName = "U" ∧ agg'.Author = "a" ∧ agg'.BookDept = "d" ∧ agg'.AddedDate = 5 ∧
      ((0 : Int) = 0 → agg' = ⟨"U", "a", "d", 5, 0⟩) ∧
      (UpdateBook drainedStore ⟨"U", "", "", 0, 0⟩ ⟨"", "", "", 0, 0⟩).2.Books
        = drainedStore.Books.map (fun b =>
            if byEmbeddedName "U" b then { b with BookInventoryPtr := some agg' } else b) ∧
      ((0 : Int) = 0 →
        (∀ b ∈ drainedStore.Books, byEmbeddedName "U" b = true →
          b.BookInventoryPtr = some ⟨"U", "a", "d", 5, 0⟩) →
        (UpdateBook drainedStore ⟨"U", "", "", 0, 0⟩ ⟨"", "", "", 0, 0⟩).2.Books
          = drainedStore.Books ∧
        (UpdateBook drainedStore ⟨"U", "", "", 0, 0⟩ ⟨"", "", "", 0, 0⟩).2.Inventory
          = drainedStore.Inventory) :=
  UpdateBook_empty_patch drainedStore ⟨"U", "", "", 0, 0⟩ ⟨"U", "a", "d", 5, 0⟩ rfl (by decide)

theorem DeleteBook_decrements_witness :
    ∃ pre post ipre ipost w',
      drainedStore.Books = pre ++ ⟨"b1", true, some ⟨"U", "a", "d", 5, 0⟩⟩ :: post ∧
      drainedStore.Inventory = ipre ++ ⟨"U", "a", "d", 5, 0⟩ :: ipost ∧
      (∀ i ∈ ipre, i.BookName ≠ "U") ∧
      DeleteBook drainedStore "b1" = some (none, w') ∧
      w'.Inventory = ipre ++ ⟨"U", "a", "d", 5, 0 - 1⟩ :: ipost ∧
      w'.Books.map Book.BookID = (pre ++ post).map Book.BookID ∧
      w'.Books.length + 1 = drainedStore.Books.length ∧
      (∀ x ∈ w'.Books, x.BookID ≠ "b1") :=
  DeleteBook_decrements drainedStore "b1" ⟨"b1", true, some ⟨"U", "a", "d", 5, 0⟩⟩
    ⟨"U", "a", "d", 5, 0⟩ ⟨"U", "a", "d", 5, 0⟩ rfl (by decide) rfl (by decide)

theorem Borrow_Return_status_witness :
    (Borrow lendingStore 2 (none : Option Unit)).1 = none ∧
    (Return (Borrow lendingStore 2 (none : Option Unit)).2 2 (none : Option Unit)).1 = none ∧
    ∃ pre post,
      lendingStore.LibraryBooks = pre ++ ⟨2, ⟨"b2", true, none⟩⟩ :: post ∧
      (∀ x ∈ pre, x._id ≠ 2) ∧
      (Return (Borrow lendingStore 2 (none : Option Unit)).2 2
          (none : Option Unit)).2.LibraryBooks
        = pre ++ ⟨2, ⟨"b2", true, none⟩⟩ :: post ∧
      (true = true →
        (Return (Borrow lendingStore 2 (none : Option Unit)).2 2
          (none : Option Unit)).2.LibraryBooks = lendingStore.LibraryBooks) :=
  Borrow_Return_status Unit lendingStore 2 none ⟨2, ⟨"b2", true, none⟩⟩ rfl (by decide)

theorem DeleteBook_not_atomic_witness :
    ∃ pre post w',
      orphanStore.Books = pre ++ ⟨"b9", true, some ⟨"Gone", "a", "d", 3, 1⟩⟩ :: post ∧
      (∀ x ∈ pre, x.BookID ≠ "b9") ∧
      DeleteBook orphanStore "b9" = some (some .ErrNoDocuments, w') ∧
      w'.Books = pre ++ post ∧ w'.Inventory = orphanStore.Inventory :=
  DeleteBook_not_atomic orphanStore "b9" ⟨"b9", true, some ⟨"Gone", "a", "d", 3, 1⟩⟩
    ⟨"Gone", "a", "d", 3, 1⟩ rfl (by decide) rfl (by decide)

end SmartLibrary
